import Mathlib

/-!
Shallow embedding of `src/vrm_fetch.py`: the time-budgeted fetcher
(`api_get`), the series point extractor (`last_point_value`), the alarm
normalizer (`get_active_alarms`), and the timestamp reconciliation
(`site_local_ms_to_utc_iso` together with the `max` selection in `main`).

Python runtime values are modelled by the inductive `PyVal`.  Python
floats are modelled as exact rationals plus an explicit NaN marker (the
embedded code performs no float arithmetic, only identity, comparison,
`math.isnan`, and `int`/`float` conversions, all of which are exact).
-/

/-- A Python runtime value as it occurs in the JSON payloads handled by
the script.  `nan` models the float NaN; `pynone` models Python `None`. -/
inductive PyVal where
  | int (n : ℤ)
  | float (q : ℚ)
  | nan
  | str (s : String)
  | bool (b : Bool)
  | pynone
  | list (xs : List PyVal)
  | dict (fields : List (String × PyVal))

/-- `isinstance(v, (int, float))`.  Python `bool` is a subclass of `int`,
so booleans count as numeric; NaN is a float. -/
def isNumeric : PyVal → Bool
  | .int _ => true
  | .float _ => true
  | .nan => true
  | .bool _ => true
  | _ => false

/-- `math.isnan(v)` on values for which it is called in the script
(numbers); every non-NaN number is not NaN. -/
def isNan : PyVal → Bool
  | .nan => true
  | _ => false

/-- `v is None`. -/
def isPyNone : PyVal → Bool
  | .pynone => true
  | _ => false

/-- The exact numeric value of a Python number, when it has one
(`bool` has value 0 or 1; NaN has none). -/
def toQ? : PyVal → Option ℚ
  | .int n => some (n : ℚ)
  | .float q => some q
  | .bool b => some (if b then 1 else 0)
  | _ => none

/-- `float(v)` on a numeric argument (the only way the script calls it). -/
def pyFloat : PyVal → PyVal
  | .int n => .float (n : ℚ)
  | .float q => .float q
  | .nan => .nan
  | .bool b => .float (if b then 1 else 0)
  | v => v

/-- Truncation of a rational toward zero, the behaviour of Python
`int(x)` on a finite float. -/
def ratTrunc (q : ℚ) : ℤ := Int.tdiv q.num (q.den : ℤ)

/-- `int(v)` on a numeric argument.  Returns `none` when Python raises
(`int(float("nan"))` raises `ValueError`). -/
def pyToInt? : PyVal → Option ℤ
  | .int n => some n
  | .float q => some (ratTrunc q)
  | .bool b => some (if b then 1 else 0)
  | _ => none

/-- The rational carried by a numeric value, with a junk default for
non-numeric arguments (only applied under an `isNumeric` guard). -/
def toQ (v : PyVal) : ℚ := (toQ? v).getD 0

/-- `last_point_value`'s scan body, iterating the entries from the last
index downwards (the caller passes the reversed list).  Mirrors
`src/vrm_fetch.py` lines 181-193: skip non-list/short points, skip
non-numeric timestamps, select the value at index 1 (through `float` when
`prefer_avg` is set), skip `None`/NaN values, and return
`(int(ts), float(val))`.  `int` of a NaN timestamp raises (`.error`). -/
def lastPointAux (prefer_avg : Bool) : List PyVal → Except Unit (Option ℤ × Option ℚ)
  | [] => .ok (none, none)
  | pt :: rest =>
    match pt with
    | .list ps =>
      match ps with
      | p0 :: p1 :: _ =>
        if isNumeric p0 then
          let val : PyVal :=
            if prefer_avg && decide (2 ≤ ps.length) && isNumeric p1 then pyFloat p1
            else if isNumeric p1 then p1
            else .pynone
          if !(isPyNone val) && !(isNan val) then
            match pyToInt? p0 with
            | some n => .ok (some n, some (toQ val))
            | none => .error ()
          else lastPointAux prefer_avg rest
        else lastPointAux prefer_avg rest
      | _ => lastPointAux prefer_avg rest
    | _ => lastPointAux prefer_avg rest

/-- `last_point_value(entries, prefer_avg)` (lines 169-194): `(None, None)`
for non-list or empty input, otherwise the backward scan. -/
def last_point_value (entries : PyVal) (prefer_avg : Bool) :
    Except Unit (Option ℤ × Option ℚ) :=
  match entries with
  | .list xs => if xs.isEmpty then .ok (none, none) else lastPointAux prefer_avg xs.reverse
  | _ => .ok (none, none)

/-- A point the extractor can return, in the words of the specification:
a list of length at least 2 whose timestamp slot is numeric and whose
value at position 1 is numeric and not NaN. -/
def isCandidatePoint : PyVal → Bool
  | .list (p0 :: p1 :: _) => isNumeric p0 && isNumeric p1 && !(isNan p1)
  | _ => false

/-- The extractor's behaviour stated from the specification: find the
latest candidate point and return `(int(ts), float(val))` of it, raising
when its timestamp is NaN, and `(None, None)` when no candidate exists or
the input is not a list. -/
def specLastPoint (entries : PyVal) : Except Unit (Option ℤ × Option ℚ) :=
  match entries with
  | .list xs =>
    match xs.reverse.find? isCandidatePoint with
    | some (.list (p0 :: p1 :: _)) =>
      if isNan p0 then .error () else .ok (pyToInt? p0, some (toQ p1))
    | _ => .ok (none, none)
  | _ => .ok (none, none)

/-- Python `==` restricted to the comparisons the script performs
(numbers against the literal `1`, values against the string literals
`"active"`/`"1"`): numeric values compare by value across `int`, `float`
and `bool`, NaN is equal to nothing, strings compare to strings, `None`
to `None`, and mixed scalar types are unequal.  Container-to-container
equality is not modelled; the script only compares against scalar
literals. -/
def pyEq (a b : PyVal) : Bool :=
  match toQ? a, toQ? b with
  | some x, some y => x == y
  | _, _ =>
    match a, b with
    | .str s, .str t => s == t
    | .pynone, .pynone => true
    | _, _ => false

/-- Python `v is True`. -/
def isBoolTrue : PyVal → Bool
  | .bool true => true
  | _ => false

/-- Python truthiness of a value. -/
def pyTruthy : PyVal → Bool
  | .pynone => false
  | .bool b => b
  | .int n => decide (n ≠ 0)
  | .float q => decide (q ≠ 0)
  | .nan => true
  | .str s => decide (s ≠ "")
  | .list xs => !xs.isEmpty
  | .dict d => !d.isEmpty

/-- Python `a or b`. -/
def pyOr (a b : PyVal) : PyVal := if pyTruthy a then a else b

/-- `d.get(k)` on a dict: the value of the first matching key, else `None`. -/
def pyDictGet (d : List (String × PyVal)) (k : String) : PyVal :=
  match d.find? (fun p => p.1 == k) with
  | some p => p.2
  | none => .pynone

/-- `isinstance(v, dict) and isinstance(v.get(k), list)`, returning the
list.  Also captures `isinstance(v, dict) and k in v and
isinstance(v[k], list)`: a key present with a non-list value fails the
`isinstance` test exactly as an absent key does. -/
def dictListField (v : PyVal) (k : String) : Option (List PyVal) :=
  match v with
  | .dict d =>
    match pyDictGet d k with
    | .list l => some l
    | _ => none
  | _ => none

/-- The envelope probing of `get_active_alarms` (lines 139-151): try
top-level `records`, then `data.records`, then top-level `alarms`, then
`data.alarms`, in that order; default to the empty record list. -/
def extractRecs (j : PyVal) : List PyVal :=
  let data : PyVal := match j with | .dict d => pyDictGet d "data" | _ => .pynone
  match dictListField j "records" with
  | some l => l
  | none =>
    match dictListField data "records" with
    | some l => l
    | none =>
      match dictListField j "alarms" with
      | some l => l
      | none =>
        match dictListField data "alarms" with
        | some l => l
        | none => []

/-- The active test of line 157:
`active_flag is True or active_flag == 1 or state in ("active", 1, "1")`. -/
def alarmActiveCond (d : List (String × PyVal)) : Bool :=
  isBoolTrue (pyDictGet d "active") || pyEq (pyDictGet d "active") (.int 1) ||
    pyEq (pyDictGet d "state") (.str "active") || pyEq (pyDictGet d "state") (.int 1) ||
    pyEq (pyDictGet d "state") (.str "1")

/-- The normalized alarm record built at lines 158-165, with the
documented `or`-fallback chains for each field. -/
def projectAlarm (d : List (String × PyVal)) : PyVal :=
  .dict [("time", pyOr (pyDictGet d "startTime")
            (pyOr (pyDictGet d "timestamp") (pyDictGet d "time"))),
         ("name", pyOr (pyDictGet d "name")
            (pyOr (pyDictGet d "title") (pyDictGet d "code"))),
         ("severity", pyDictGet d "severity"),
         ("message", pyOr (pyDictGet d "message") (pyDictGet d "text"))]

/-- The two kinds of Python exception the script distinguishes:
`SystemExit` escapes `except Exception` handlers, every other raised
error is an `Exception`. -/
inductive PyErr where
  | sysExit
  | exc
deriving DecidableEq

/-- The record loop of lines 153-166: keep records passing the active
test, projected to the normalized shape.  A non-dict record makes
`a.get` raise `AttributeError` (an `Exception`), which propagates: the
loop is outside the `try` that guards the fetch. -/
def processRecords : List PyVal → Except PyErr (List PyVal)
  | [] => .ok []
  | a :: rest =>
    match a with
    | .dict d =>
      if alarmActiveCond d then
        match processRecords rest with
        | .ok tl => .ok (projectAlarm d :: tl)
        | .error e => .error e
      else processRecords rest
    | _ => .error .exc

/-- Envelope extraction followed by the record loop: the body of
`get_active_alarms` after a successful fetch. -/
def processAlarmPayload (j : PyVal) : Except PyErr (List PyVal) :=
  processRecords (extractRecs j)

/-- Envelope shape 1: top-level `records`. -/
def envTopRecords (L : List PyVal) : PyVal := .dict [("records", .list L)]

/-- Envelope shape 2: nested `data.records`. -/
def envDataRecords (L : List PyVal) : PyVal :=
  .dict [("data", .dict [("records", .list L)])]

/-- Envelope shape 3: top-level `alarms`. -/
def envTopAlarms (L : List PyVal) : PyVal := .dict [("alarms", .list L)]

/-- Envelope shape 4: nested `data.alarms`. -/
def envDataAlarms (L : List PyVal) : PyVal :=
  .dict [("data", .dict [("alarms", .list L)])]

/-- The active-state signal in the words of the specification: the
`active` field is the boolean `true` or has numeric value 1, or the
`state` field is the string `"active"`, the string `"1"`, or has numeric
value 1. -/
def specAlarmActive (d : List (String × PyVal)) : Bool :=
  isBoolTrue (pyDictGet d "active") || (toQ? (pyDictGet d "active") == some 1) ||
    (match pyDictGet d "state" with
     | .str s => s == "active" || s == "1"
     | _ => false) ||
    (toQ? (pyDictGet d "state") == some 1)

/-- The tunables read from the environment at lines 18-24; the defaults
are connect 4 s, read 6 s, 2 attempts, backoff base 0.4 s, budget 25 s. -/
structure FetchConfig where
  connectTimeout : ℚ
  readTimeout : ℚ
  retries : ℕ
  backoffBase : ℚ
  budget : ℚ

/-- The documented default configuration. -/
def defaultFetchConfig : FetchConfig :=
  { connectTimeout := 4, readTimeout := 6, retries := 2, backoffBase := 2/5, budget := 25 }

/-- What the network does on one GET: either an HTTP response with a
status code and a parsed JSON body (`none` when the body fails to parse),
or a `requests.Timeout`/`requests.ConnectionError`; `elapsed` is the
wall-clock time the call consumed. -/
inductive NetOutcome where
  | response (code : ℕ) (body : Option PyVal) (elapsed : ℚ)
  | netTimeout (elapsed : ℚ)

/-- How one call of `api_get` ends.  `deadlineExceeded` is the
`TimeoutError` of line 46 (budget exhausted before an attempt),
`unauthorized` the `SystemExit` of line 62, `requestFailed` the
propagated non-timeout `requests.RequestException` (HTTP error status or
JSON parse failure), `retriesExhausted` the re-raised timeout/connection
error of line 68, and `retryBudgetExhausted` the `TimeoutError` of
line 76 (reachable only when the retry count is zero). -/
inductive FetchResult where
  | ok (body : PyVal)
  | deadlineExceeded
  | unauthorized
  | requestFailed
  | retriesExhausted
  | retryBudgetExhausted

/-- One backoff sleep performed by `api_get`: the 1-based attempt number
that just failed, the remaining budget computed at the top of that
iteration, the clock value when the sleep starts, and the slept
duration. -/
structure SleepEv where
  attempt : ℕ
  remBefore : ℚ
  nowAt : ℚ
  dur : ℚ
deriving DecidableEq

/-- The retry loop of `api_get` (lines 42-76).  `fuel` counts the loop
iterations left (`RETRIES - attempt`), `attempt` the failed attempts so
far, `now` the monotonic clock.  Returns the result, the number of GETs
issued, and the backoff sleeps performed. -/
def apiGetAux (cfg : FetchConfig) (world : ℕ → NetOutcome) (t0 : ℚ) :
    ℕ → ℕ → ℚ → FetchResult × ℕ × List SleepEv
  | 0, _, _ => (.retryBudgetExhausted, 0, [])
  | fuel + 1, attempt, now =>
    let remaining := cfg.budget - (now - t0)
    if remaining ≤ 0 then (.deadlineExceeded, 0, [])
    else
      let _connect_t := min cfg.connectTimeout (max (1/2) (remaining / 2))
      let _read_t := min cfg.readTimeout (max (1/2) (remaining / 2))
      match world attempt with
      | .response code body _ =>
        if code = 401 then (.unauthorized, 1, [])
        else if 400 ≤ code ∧ code < 600 then (.requestFailed, 1, [])
        else
          match body with
          | some b => (.ok b, 1, [])
          | none => (.requestFailed, 1, [])
      | .netTimeout elapsed =>
        let attempt1 := attempt + 1
        if cfg.retries ≤ attempt1 then (.retriesExhausted, 1, [])
        else
          let sleep_s := min (cfg.backoffBase * 2 ^ (attempt1 - 1))
            (max (1/10) (remaining / 4))
          let nxt := apiGetAux cfg world t0 fuel attempt1 (now + elapsed + sleep_s)
          (nxt.1, nxt.2.1 + 1, ⟨attempt1, remaining, now + elapsed, sleep_s⟩ :: nxt.2.2)

/-- `api_get` called at clock value `now` with origin `t0`: run the loop
with the full retry count. -/
def apiGet (cfg : FetchConfig) (world : ℕ → NetOutcome) (t0 now : ℚ) :
    FetchResult × ℕ × List SleepEv :=
  apiGetAux cfg world t0 cfg.retries 0 now

/-- `get_active_alarms` (lines 129-166) given how its `api_get` call
ended: the `try`/`except Exception` of lines 133-138 turns every fetch
failure except `SystemExit` into an empty list; a `SystemExit` (the 401
abort) propagates; a successful fetch is normalized (which may itself
raise on a non-dict record). -/
def get_active_alarms (fetched : FetchResult) : Except PyErr (List PyVal) :=
  match fetched with
  | .ok j => processAlarmPayload j
  | .unauthorized => .error .sysExit
  | _ => .ok []

/-- The alarm section of `main` (lines 283-287): the `alarmas` field
starts as `[]`; `except Exception` appends a note and keeps the `[]`;
a `SystemExit` propagates and aborts the run. -/
def mainAlarmsStep (fetched : FetchResult) (notes : List String) :
    Except PyErr (List PyVal × List String) :=
  match get_active_alarms fetched with
  | .ok alarms => .ok (alarms, notes)
  | .error .exc => .ok ([], notes ++ ["Error leyendo alarmas de generación: (Exception)"])
  | .error .sysExit => .error .sysExit

/-- The fetch failures that `except Exception` catches: every failing
result other than the `SystemExit` of a 401. -/
def isCatchableFailure : FetchResult → Bool
  | .deadlineExceeded => true
  | .requestFailed => true
  | .retriesExhausted => true
  | .retryBudgetExhausted => true
  | _ => false

/-- One decimal digit character. -/
def digitChar (k : ℕ) : Char :=
  match k % 10 with
  | 0 => '0' | 1 => '1' | 2 => '2' | 3 => '3' | 4 => '4'
  | 5 => '5' | 6 => '6' | 7 => '7' | 8 => '8' | _ => '9'

/-- Two-digit zero-padded rendering. -/
def pad2 (n : ℤ) : List Char := [digitChar (n.toNat / 10), digitChar n.toNat]

/-- Four-digit zero-padded rendering. -/
def pad4 (n : ℤ) : List Char :=
  [digitChar (n.toNat / 1000), digitChar (n.toNat / 100),
   digitChar (n.toNat / 10), digitChar n.toNat]

/-- Six-digit zero-padded rendering. -/
def pad6 (n : ℤ) : List Char :=
  [digitChar (n.toNat / 100000), digitChar (n.toNat / 10000),
   digitChar (n.toNat / 1000), digitChar (n.toNat / 100),
   digitChar (n.toNat / 10), digitChar n.toNat]

/-- Proleptic Gregorian calendar date from days since 1970-01-01
(civil-from-days; all intermediate divisions are on non-negative values,
so Euclidean division is floor division as in the algorithm). -/
def civilFromDays (z : ℤ) : ℤ × ℤ × ℤ :=
  let zd := z + 719468
  let era := zd.ediv 146097
  let doe := zd - era * 146097
  let yoe := (doe - doe.ediv 1460 + doe.ediv 36524 - doe.ediv 146096).ediv 365
  let y := yoe + era * 400
  let doy := doe - (365 * yoe + yoe.ediv 4 - yoe.ediv 100)
  let mp := (5 * doy + 2).ediv 153
  let d := doy - (153 * mp + 2).ediv 5 + 1
  let m := mp + (if mp < 10 then 3 else -9)
  (y + (if m ≤ 2 then 1 else 0), m, d)

/-- The `YYYY-MM-DDTHH:MM:SS` part of `datetime.isoformat` for an
instant given in microseconds since the epoch. -/
def civilBaseChars (us : ℤ) : List Char :=
  let totalSec := us.ediv 1000000
  let days := totalSec.ediv 86400
  let sod := totalSec.emod 86400
  let ymd := civilFromDays days
  pad4 ymd.1 ++ '-' :: pad2 ymd.2.1 ++ '-' :: pad2 ymd.2.2 ++
    'T' :: pad2 (sod.ediv 3600) ++ ':' :: pad2 ((sod.ediv 60).emod 60) ++
    ':' :: pad2 (sod.emod 60)

/-- The `.ffffff` microsecond part of `datetime.isoformat`, present only
when the microsecond component is nonzero. -/
def civilFracChars (us : ℤ) : List Char :=
  if us.emod 1000000 = 0 then [] else '.' :: pad6 (us.emod 1000000)

/-- `datetime.isoformat` without the offset: date, time and optional
microseconds. -/
def renderCivilChars (us : ℤ) : List Char := civilBaseChars us ++ civilFracChars us

/-- The `+00:00` offset suffix `isoformat` renders for UTC. -/
def plusOffsetChars : List Char := ['+', '0', '0', ':', '0', '0']

/-- Python `str.replace("+00:00", "Z")`: replace every non-overlapping
occurrence, scanning left to right. -/
def stripPlusZeros : List Char → List Char
  | [] => []
  | c :: rest =>
    if c = '+' ∧ rest.take 5 = ['0', '0', ':', '0', '0'] then
      'Z' :: stripPlusZeros (rest.drop 5)
    else c :: stripPlusZeros rest
termination_by l => l.length
decreasing_by
  all_goals simp only [List.length_drop, List.length_cons]
  all_goals omega

/-- An aware `datetime`: the absolute instant it denotes (microseconds
since the epoch) and the attached zone name.  `astimezone` changes the
zone while preserving the instant. -/
structure PyDatetime where
  us : ℤ
  tzname : String

/-- `datetime.fromtimestamp(ms / 1000, zone)`: the aware datetime at the
epoch instant `ms` milliseconds, attached to `zone` (an integer number
of milliseconds is exactly `ms * 1000` microseconds). -/
def fromtimestampMs (ms : ℤ) (zone : String) : PyDatetime := ⟨ms * 1000, zone⟩

/-- `d.astimezone(dt.UTC)`: same instant, UTC zone. -/
def astimezoneUTC (d : PyDatetime) : PyDatetime := ⟨d.us, "UTC"⟩

/-- `d.isoformat()` for a UTC-zone datetime: civil text plus the
`+00:00` offset. -/
def isoformatUTCChars (d : PyDatetime) : List Char :=
  renderCivilChars d.us ++ plusOffsetChars

/-- `iso_utc` (lines 197-198):
`d.astimezone(dt.UTC).isoformat().replace("+00:00", "Z")`. -/
def iso_utc (d : PyDatetime) : String :=
  String.mk (stripPlusZeros (isoformatUTCChars (astimezoneUTC d)))

/-- `site_local_ms_to_utc_iso` (lines 205-214).  `zoneOK` models the
`ZoneInfo` database: `zoneOK tz = false` means `ZoneInfo(tz)` raises,
which the bare `except` turns into the UTC fallback; an empty or missing
zone name skips the `if site_tz:` branch and also falls back. -/
def site_local_ms_to_utc_iso (zoneOK : String → Bool) (ms : ℤ)
    (site_tz : Option String) : String :=
  match site_tz with
  | some tz =>
    if tz ≠ "" then
      if zoneOK tz then iso_utc (fromtimestampMs ms tz)
      else String.mk (stripPlusZeros (isoformatUTCChars (fromtimestampMs ms "UTC")))
    else String.mk (stripPlusZeros (isoformatUTCChars (fromtimestampMs ms "UTC")))
  | none => String.mk (stripPlusZeros (isoformatUTCChars (fromtimestampMs ms "UTC")))

/-- One step of Python `max(..., key=lambda x: x[0])`: keep the current
maximum unless the new element is strictly greater, so the first maximal
element wins. -/
def maxCandStep (acc x : ℤ × Option String) : ℤ × Option String :=
  if acc.1 < x.1 then x else acc

/-- The timestamp reconciliation of `main` (lines 315-317): `None` for no
candidates, otherwise `site_local_ms_to_utc_iso` of
`max(candidates, key=lambda x: x[0])`. -/
def reconcileTimestamp (zoneOK : String → Bool)
    (cands : List (ℤ × Option String)) : Option String :=
  match cands with
  | [] => none
  | h :: t =>
    let m := t.foldl maxCandStep h
    some (site_local_ms_to_utc_iso zoneOK m.1 m.2)

/-- The candidate selection in the words of the specification: the first
candidate whose timestamp is greater than or equal to every candidate's
timestamp (maximum timestamp, ties broken by first occurrence). -/
def firstMaxCand (l : List (ℤ × Option String)) : Option (ℤ × Option String) :=
  l.find? (fun c => l.all (fun x => x.1 ≤ c.1))

theorem isNan_pyFloat (v : PyVal) : isNan (pyFloat v) = isNan v := by
  cases v <;> rfl

theorem isPyNone_pyFloat_of_numeric (v : PyVal) (h : isNumeric v = true) :
    isPyNone (pyFloat v) = false := by
  cases v <;> simp_all [isNumeric, pyFloat, isPyNone]

theorem isPyNone_of_numeric (v : PyVal) (h : isNumeric v = true) :
    isPyNone v = false := by
  cases v <;> simp_all [isNumeric, isPyNone]

theorem toQ_pyFloat (v : PyVal) : toQ (pyFloat v) = toQ v := by
  cases v <;> rfl

theorem pyToInt?_eq_none_iff (v : PyVal) (h : isNumeric v = true) :
    (pyToInt? v = none ↔ isNan v = true) := by
  cases v <;> simp_all [isNumeric, pyToInt?, isNan]

/-- One step of the backward scan: a candidate head point is resolved
immediately, any other head is skipped. -/
theorem lastPointAux_cons (pa : Bool) (pt : PyVal) (rest : List PyVal) :
    lastPointAux pa (pt :: rest) =
      if isCandidatePoint pt then
        (match pt with
         | .list (p0 :: p1 :: _) =>
           if isNan p0 then .error () else .ok (pyToInt? p0, some (toQ p1))
         | _ => .ok (none, none))
      else lastPointAux pa rest := by
  match pt with
  | .int _ | .float _ | .nan | .str _ | .bool _ | .pynone | .dict _ =>
    simp [lastPointAux, isCandidatePoint]
  | .list [] => simp [lastPointAux, isCandidatePoint]
  | .list [p0] => simp [lastPointAux, isCandidatePoint]
  | .list (p0 :: p1 :: ps) =>
    have hlen : decide (2 ≤ (p0 :: p1 :: ps).length) = true := by simp
    cases pa <;> cases p0 <;> cases p1 <;>
      simp [lastPointAux, isCandidatePoint, hlen, isNumeric, isNan, isPyNone,
        pyFloat, toQ, toQ?, pyToInt?]

/-- The backward scan agrees with the specification-level
latest-candidate search, for either value of `prefer_avg`. -/
theorem lastPointAux_eq_spec (prefer_avg : Bool) (l : List PyVal) :
    lastPointAux prefer_avg l =
      (match l.find? isCandidatePoint with
       | some (.list (p0 :: p1 :: _)) =>
         if isNan p0 then .error () else .ok (pyToInt? p0, some (toQ p1))
       | _ => .ok (none, none)) := by
  induction l with
  | nil => rfl
  | cons pt rest ih =>
    rw [lastPointAux_cons]
    by_cases hc : isCandidatePoint pt
    · rw [if_pos hc, List.find?_cons_of_pos _ hc]
      obtain ⟨p0, p1, ps, rfl⟩ : ∃ p0 p1 ps, pt = .list (p0 :: p1 :: ps) := by
        match pt, hc with
        | .list (p0 :: p1 :: ps), _ => exact ⟨p0, p1, ps, rfl⟩
        | .int _, hc | .float _, hc | .nan, hc | .str _, hc | .bool _, hc
        | .pynone, hc | .dict _, hc | .list [], hc | .list [_], hc =>
          exact absurd hc (by simp [isCandidatePoint])
      rfl
    · rw [if_neg hc, List.find?_cons_of_neg _ hc]
      exact ih

/-- C3 counterexample input: a single point whose timestamp slot holds
the float NaN and whose value slot holds a valid number. -/
def nanTsEntries : PyVal := .list [.list [.nan, .float 5]]

/-- C3 counterexample: on `[[float("nan"), 5.0]]` the extractor neither
skips the point nor returns it as a pair: `int(float("nan"))` raises
`ValueError`, contradicting "never raises on malformed input — malformed
points are skipped". -/
theorem last_point_value_raises_on_nan_timestamp :
    last_point_value nanTsEntries false = .error () ∧
      ∀ r : Option ℤ × Option ℚ, last_point_value nanTsEntries false ≠ .ok r := by
  refine ⟨rfl, ?_⟩
  intro r h
  rw [show last_point_value nanTsEntries false = .error () from rfl] at h
  exact Except.noConfusion h

/-- C3 (amended): the extractor returns the latest (highest-index) point
whose timestamp is numeric and whose value at position 1 is numeric and
not NaN, as `(int(ts), float(val))`; it returns `(None, None)` when no
such point exists or the input is empty or not a list, and its returned
value is never NaN; but when the selected point's timestamp is the float
NaN, `int(ts)` raises instead of skipping the point. -/
theorem last_point_value_eq_latest_valid_spec (prefer_avg : Bool) (entries : PyVal) :
    last_point_value entries prefer_avg = specLastPoint entries := by
  match entries with
  | .int _ | .float _ | .nan | .str _ | .bool _ | .pynone | .dict _ => rfl
  | .list xs =>
    match xs with
    | [] => rfl
    | x :: t =>
      show lastPointAux prefer_avg ((x :: t).reverse) = _
      rw [lastPointAux_eq_spec]
      simp only [specLastPoint]

/-- C4: the `prefer_avg` flag has no observable effect on the extractor:
both branches read index 1 and produce the same `(timestamp, value)`
result (including the same raising behaviour) on every input. -/
theorem last_point_value_prefer_avg_irrelevant (entries : PyVal) :
    last_point_value entries true = last_point_value entries false := by
  rw [last_point_value_eq_latest_valid_spec true entries,
    last_point_value_eq_latest_valid_spec false entries]

/-- The deadline check of lines 44-48: with at least one loop iteration
left and the budget exhausted, the loop raises before issuing a GET. -/
theorem apiGetAux_deadline (cfg : FetchConfig) (world : ℕ → NetOutcome)
    (t0 : ℚ) (fuel attempt : ℕ) (now : ℚ) (hf : 1 ≤ fuel)
    (h : cfg.budget - (now - t0) ≤ 0) :
    apiGetAux cfg world t0 fuel attempt now = (.deadlineExceeded, 0, []) := by
  match fuel, hf with
  | f + 1, _ => simp [apiGetAux, h]

/-- C1: whenever the remaining budget `B - (now - t0)` is at most 0
before an attempt would start (in particular on the very first attempt,
e.g. with the budget set to 0), `api_get` fails with the deadline
`TimeoutError` and performs zero network calls and zero sleeps; this
holds at every iteration of the retry loop, for any retry count of at
least one. -/
theorem apiGet_budget_exhausted_no_attempt :
    (∀ (cfg : FetchConfig) (world : ℕ → NetOutcome) (t0 : ℚ) (fuel attempt : ℕ)
        (now : ℚ), 1 ≤ fuel → cfg.budget - (now - t0) ≤ 0 →
        apiGetAux cfg world t0 fuel attempt now = (.deadlineExceeded, 0, [])) ∧
    (∀ (cfg : FetchConfig) (world : ℕ → NetOutcome) (t0 now : ℚ),
        1 ≤ cfg.retries → cfg.budget - (now - t0) ≤ 0 →
        apiGet cfg world t0 now = (.deadlineExceeded, 0, [])) :=
  ⟨fun cfg world t0 fuel attempt now hf h =>
      apiGetAux_deadline cfg world t0 fuel attempt now hf h,
   fun cfg world t0 now hr h =>
      apiGetAux_deadline cfg world t0 cfg.retries 0 now hr h⟩

/-- C1 witness: a zero budget with the default retry count yields the
deadline error with no GET issued. -/
theorem apiGet_budget_exhausted_no_attempt_witness :
    apiGet ⟨4, 6, 2, 2/5, 0⟩ (fun _ => .netTimeout 0) 0 0 =
      (.deadlineExceeded, 0, []) :=
  apiGet_budget_exhausted_no_attempt.2 ⟨4, 6, 2, 2/5, 0⟩ (fun _ => .netTimeout 0)
    0 0 (by norm_num) (by norm_num)

/-- C2: an HTTP 401 on the first attempt makes `api_get` raise
`SystemExit` after exactly one GET and no backoff sleep (the retry
budget is not consumed), and the `SystemExit` is not swallowed by
`get_active_alarms`' `except Exception` nor by the alarm section of
`main`: it propagates and aborts the run. -/
theorem apiGet_401_fatal_not_swallowed :
    ∀ (cfg : FetchConfig) (world : ℕ → NetOutcome) (t0 now : ℚ)
      (body : Option PyVal) (el : ℚ),
      1 ≤ cfg.retries → 0 < cfg.budget - (now - t0) →
      world 0 = .response 401 body el →
      apiGet cfg world t0 now = (.unauthorized, 1, []) ∧
      get_active_alarms (apiGet cfg world t0 now).1 = .error .sysExit ∧
      (∀ notes, mainAlarmsStep (apiGet cfg world t0 now).1 notes = .error .sysExit) := by
  intro cfg world t0 now body el hr hb hw
  have hmain : apiGet cfg world t0 now = (.unauthorized, 1, []) := by
    obtain ⟨r, hr'⟩ : ∃ r, cfg.retries = r + 1 := ⟨cfg.retries - 1, by omega⟩
    show apiGetAux cfg world t0 cfg.retries 0 now = _
    rw [hr']
    simp [apiGetAux, not_le.mpr hb, hw]
  refine ⟨hmain, by rw [hmain]; rfl, fun notes => by rw [hmain]; rfl⟩

/-- C2 witness: a 401 response with the default configuration. -/
theorem apiGet_401_fatal_not_swallowed_witness :
    apiGet ⟨4, 6, 2, 2/5, 25⟩ (fun _ => .response 401 none 0) 0 0 =
      (.unauthorized, 1, []) ∧
    mainAlarmsStep (apiGet ⟨4, 6, 2, 2/5, 25⟩ (fun _ => .response 401 none 0) 0 0).1 [] =
      .error .sysExit :=
  ⟨(apiGet_401_fatal_not_swallowed ⟨4, 6, 2, 2/5, 25⟩ (fun _ => .response 401 none 0)
      0 0 none 0 (by norm_num) (by norm_num) rfl).1,
   (apiGet_401_fatal_not_swallowed ⟨4, 6, 2, 2/5, 25⟩ (fun _ => .response 401 none 0)
      0 0 none 0 (by norm_num) (by norm_num) rfl).2.2 []⟩

/-- Every sleep recorded by the retry loop follows the backoff formula of
line 70 and is bounded by `max(0.1, remaining / 4)`, where `remaining` is
the budget left at the start of the failed attempt. -/
theorem apiGetAux_sleeps_spec (cfg : FetchConfig) (world : ℕ → NetOutcome)
    (t0 : ℚ) : ∀ (fuel attempt : ℕ) (now : ℚ) (ev : SleepEv),
    ev ∈ (apiGetAux cfg world t0 fuel attempt now).2.2 →
    ev.dur = min (cfg.backoffBase * 2 ^ (ev.attempt - 1))
        (max (1/10) (ev.remBefore / 4)) ∧
      ev.dur ≤ max (1/10) (ev.remBefore / 4) := by
  intro fuel
  induction fuel with
  | zero => intro attempt now ev hmem; simp [apiGetAux] at hmem
  | succ fuel ih =>
    intro attempt now ev hmem
    simp only [apiGetAux] at hmem
    split at hmem
    · simp at hmem
    · split at hmem
      · split at hmem
        · simp at hmem
        · split at hmem
          · simp at hmem
          · split at hmem <;> simp at hmem
      · split at hmem
        · simp at hmem
        · simp only [List.mem_cons] at hmem
          rcases hmem with rfl | hmem
          · exact ⟨rfl, min_le_right _ _⟩
          · exact ih (attempt + 1) _ ev hmem

/-- C5 (amended): every backoff sleep of `api_get` lasts exactly
`min(backoff_base * 2^(attempt-1), max(0.1, remaining/4))` seconds, where
`remaining` is the budget remaining at the start of the failed attempt,
and is therefore bounded by `max(0.1, remaining/4)`; it is not in general
bounded by the budget remaining when the sleep starts (see the
counterexample), because of the 0.1-second floor and because `remaining`
is measured before the attempt consumed time. -/
theorem apiGet_backoff_formula_bound :
    ∀ (cfg : FetchConfig) (world : ℕ → NetOutcome) (t0 now : ℚ) (ev : SleepEv),
      ev ∈ (apiGet cfg world t0 now).2.2 →
      ev.dur = min (cfg.backoffBase * 2 ^ (ev.attempt - 1))
          (max (1/10) (ev.remBefore / 4)) ∧
        ev.dur ≤ max (1/10) (ev.remBefore / 4) :=
  fun cfg world t0 now ev h =>
    apiGetAux_sleeps_spec cfg world t0 cfg.retries 0 now ev h

/-- C5 witness: the first retry of a default-configured run sleeps
`0.4 = min(0.4 * 2^0, max(0.1, 25/4))` seconds. -/
theorem apiGet_backoff_formula_bound_witness :
    (⟨1, 25, 0, 2/5⟩ : SleepEv).dur =
      min ((⟨4, 6, 2, 2/5, 25⟩ : FetchConfig).backoffBase *
          2 ^ ((⟨1, 25, 0, 2/5⟩ : SleepEv).attempt - 1))
        (max (1/10) ((⟨1, 25, 0, 2/5⟩ : SleepEv).remBefore / 4)) ∧
      (⟨1, 25, 0, 2/5⟩ : SleepEv).dur ≤
        max (1/10) ((⟨1, 25, 0, 2/5⟩ : SleepEv).remBefore / 4) :=
  apiGet_backoff_formula_bound ⟨4, 6, 2, 2/5, 25⟩ (fun _ => .netTimeout 0) 0 0
    ⟨1, 25, 0, 2/5⟩ (by
      have h : (apiGet ⟨4, 6, 2, 2/5, 25⟩ (fun _ => .netTimeout 0) 0 0).2.2 =
          [⟨1, 25, 0, 2/5⟩] := by
        norm_num [apiGet, apiGetAux, min_def, max_def]
      rw [h]
      exact List.mem_singleton.mpr rfl)

/-- C5 counterexample: with 0.05 s of budget left, a connection error
that fails instantly is followed by a backoff sleep of 0.1 s (the floor),
which exceeds the 0.05 s remaining at the time of the sleep — the backoff
can itself violate the global budget. -/
theorem backoff_sleep_can_exceed_remaining_budget :
    (apiGet ⟨4, 6, 2, 2/5, 1/20⟩ (fun _ => .netTimeout 0) 0 0).2.2 =
      [⟨1, 1/20, 0, 1/10⟩] ∧
    (⟨4, 6, 2, 2/5, 1/20⟩ : FetchConfig).budget -
        ((⟨1, 1/20, 0, 1/10⟩ : SleepEv).nowAt - 0) <
      (⟨1, 1/20, 0, 1/10⟩ : SleepEv).dur :=
  ⟨by norm_num [apiGet, apiGetAux, min_def, max_def], by norm_num⟩

theorem pyEq_int_one (v : PyVal) : pyEq v (.int 1) = (toQ? v == some 1) := by
  cases v <;> rfl

theorem pyEq_str_lit (v : PyVal) (s : String) :
    pyEq v (.str s) = (match v with | .str t => t == s | _ => false) := by
  cases v <;> rfl

/-- The inline active test of line 157 agrees with the
specification-level active-state signal. -/
theorem alarmActiveCond_eq_spec (d : List (String × PyVal)) :
    alarmActiveCond d = specAlarmActive d := by
  unfold alarmActiveCond specAlarmActive
  rw [pyEq_int_one, pyEq_int_one, pyEq_str_lit, pyEq_str_lit]
  generalize pyDictGet d "state" = s
  cases s <;> simp [Bool.or_assoc, Bool.or_comm, Bool.or_left_comm]

/-- On a list of dict records, the loop keeps exactly the records passing
the specification-level active signal, projected in order. -/
theorem processRecords_filter (recs : List (List (String × PyVal))) :
    processRecords (recs.map PyVal.dict) =
      .ok ((recs.filter specAlarmActive).map projectAlarm) := by
  induction recs with
  | nil => rfl
  | cons d rest ih =>
    simp only [List.map_cons, List.filter_cons, processRecords]
    rw [alarmActiveCond_eq_spec]
    by_cases h : specAlarmActive d
    · simp [h, ih]
    · simp [h, ih]

/-- C6: a raw (dict) alarm record is included in the normalizer's output
exactly when its `active` field is the boolean `true` or has numeric
value 1, or its `state` field is `"active"`, `"1"`, or has numeric value
1; in particular `true`, `1`, `"1"` (as state) and `"active"` are
included, while `false`, `0`, `"inactive"` and missing signals are
excluded. -/
theorem active_alarm_filter_characterization :
    (∀ recs : List (List (String × PyVal)),
        processRecords (recs.map PyVal.dict) =
          .ok ((recs.filter specAlarmActive).map projectAlarm)) ∧
    processRecords [.dict [("active", .bool true)]] =
      .ok [projectAlarm [("active", .bool true)]] ∧
    processRecords [.dict [("active", .int 1)]] =
      .ok [projectAlarm [("active", .int 1)]] ∧
    processRecords [.dict [("active", .float 1)]] =
      .ok [projectAlarm [("active", .float 1)]] ∧
    processRecords [.dict [("state", .str "active")]] =
      .ok [projectAlarm [("state", .str "active")]] ∧
    processRecords [.dict [("state", .int 1)]] =
      .ok [projectAlarm [("state", .int 1)]] ∧
    processRecords [.dict [("state", .str "1")]] =
      .ok [projectAlarm [("state", .str "1")]] ∧
    processRecords [.dict [("active", .bool false)]] = .ok [] ∧
    processRecords [.dict [("active", .int 0)]] = .ok [] ∧
    processRecords [.dict [("state", .str "inactive")]] = .ok [] ∧
    processRecords [(.dict [] : PyVal)] = .ok [] :=
  ⟨processRecords_filter, rfl, rfl, rfl, rfl, rfl, rfl, rfl, rfl, rfl, rfl⟩

/-- C7: wrapping one record list in any of the four envelope shapes
(top-level `records`, `data.records`, top-level `alarms`, `data.alarms`)
yields the same extracted record list, hence the same normalized output;
and when several shapes are present simultaneously the first matching
shape in that precedence order wins. -/
theorem alarm_envelope_shapes_agree :
    (∀ L : List PyVal,
      extractRecs (envTopRecords L) = L ∧
      extractRecs (envDataRecords L) = L ∧
      extractRecs (envTopAlarms L) = L ∧
      extractRecs (envDataAlarms L) = L ∧
      processAlarmPayload (envTopRecords L) = processAlarmPayload (envDataRecords L) ∧
      processAlarmPayload (envDataRecords L) = processAlarmPayload (envTopAlarms L) ∧
      processAlarmPayload (envTopAlarms L) = processAlarmPayload (envDataAlarms L)) ∧
    (∀ L1 L2 L3 L4 : List PyVal,
      extractRecs (.dict [("records", .list L1), ("alarms", .list L3),
        ("data", .dict [("records", .list L2), ("alarms", .list L4)])]) = L1 ∧
      extractRecs (.dict [("alarms", .list L3),
        ("data", .dict [("records", .list L2), ("alarms", .list L4)])]) = L2 ∧
      extractRecs (.dict [("alarms", .list L3),
        ("data", .dict [("alarms", .list L4)])]) = L3 ∧
      extractRecs (.dict [("data", .dict [("alarms", .list L4)])]) = L4) :=
  ⟨fun L => ⟨rfl, rfl, rfl, rfl, rfl, rfl, rfl⟩,
   fun L1 L2 L3 L4 => ⟨rfl, rfl, rfl, rfl⟩⟩

/-- C8 counterexample: when the alarms fetch fails with a network error
(here: retries exhausted), `get_active_alarms` swallows the failure and
returns the empty list, and the notes list is left unchanged — no
human-readable note is appended, contrary to the claim. -/
theorem alarm_fetch_failure_appends_no_note :
    get_active_alarms .retriesExhausted = .ok [] ∧
    mainAlarmsStep .retriesExhausted [] = .ok ([], []) :=
  ⟨rfl, rfl⟩

/-- C8 (amended): every fetch failure other than the 401 `SystemExit`
is caught inside `get_active_alarms` and degrades to an empty alarm
list; the run continues and produces output, but no note is appended on
this path (the note of lines 286-287 is reachable only when the
normalization loop itself raises after a successful fetch). -/
theorem alarm_fetch_failure_degrades_silently :
    ∀ (fetched : FetchResult) (notes : List String),
      isCatchableFailure fetched = true →
      get_active_alarms fetched = .ok [] ∧
      mainAlarmsStep fetched notes = .ok ([], notes) := by
  intro fetched notes h
  cases fetched <;>
    simp_all [isCatchableFailure, get_active_alarms, mainAlarmsStep]

/-- C8 witness: a deadline failure of the alarms fetch leaves the notes
unchanged and the alarm list empty while the run continues. -/
theorem alarm_fetch_failure_degrades_silently_witness :
    get_active_alarms .deadlineExceeded = .ok [] ∧
    mainAlarmsStep .deadlineExceeded ["nota previa"] = .ok ([], ["nota previa"]) :=
  alarm_fetch_failure_degrades_silently .deadlineExceeded ["nota previa"] rfl

theorem digitChar_ne_plus (k : ℕ) : digitChar k ≠ '+' := by
  unfold digitChar
  split <;> decide

theorem plus_ne_digitChar (k : ℕ) : '+' ≠ digitChar k :=
  fun h => digitChar_ne_plus k h.symm

theorem plus_notin_pad2 (n : ℤ) : '+' ∉ pad2 n := by
  simp [pad2, plus_ne_digitChar]

theorem plus_notin_pad4 (n : ℤ) : '+' ∉ pad4 n := by
  simp [pad4, plus_ne_digitChar]

theorem plus_notin_pad6 (n : ℤ) : '+' ∉ pad6 n := by
  simp [pad6, plus_ne_digitChar]

theorem plus_notin_civilBase (us : ℤ) : '+' ∉ civilBaseChars us := by
  simp [civilBaseChars, pad4, pad2, plus_ne_digitChar,
    show '+' ≠ '-' from by decide, show '+' ≠ 'T' from by decide,
    show '+' ≠ ':' from by decide]

theorem plus_notin_civilFrac (us : ℤ) : '+' ∉ civilFracChars us := by
  unfold civilFracChars
  split
  · simp
  · simp [pad6, plus_ne_digitChar, show '+' ≠ '.' from by decide]

theorem plus_notin_render (us : ℤ) : '+' ∉ renderCivilChars us := by
  simp [renderCivilChars, List.mem_append, plus_notin_civilBase us,
    plus_notin_civilFrac us]

/-- `replace("+00:00", "Z")` on a text with no `+` followed by the UTC
offset rewrites exactly the trailing offset to `Z`. -/
theorem stripPlusZeros_body_append (body : List Char) (h : '+' ∉ body) :
    stripPlusZeros (body ++ plusOffsetChars) = body ++ ['Z'] := by
  induction body with
  | nil => simp [stripPlusZeros, plusOffsetChars]
  | cons c b ih =>
    have hc : ¬(c = '+') := fun hcc => h (by simp [hcc])
    have hb : '+' ∉ b := fun hbb => h (List.mem_cons_of_mem _ hbb)
    rw [List.cons_append]
    simp only [stripPlusZeros]
    rw [if_neg (fun hand => hc hand.1), ih hb, List.cons_append]

/-- Every branch of `site_local_ms_to_utc_iso` renders the same absolute
instant (the zone never changes it) and ends with the rewritten `Z`
suffix. -/
theorem site_local_eq_render (zoneOK : String → Bool) (ms : ℤ)
    (site_tz : Option String) :
    site_local_ms_to_utc_iso zoneOK ms site_tz =
      String.mk (renderCivilChars (ms * 1000) ++ ['Z']) := by
  have hcore : String.mk (stripPlusZeros (renderCivilChars (ms * 1000) ++ plusOffsetChars)) =
      String.mk (renderCivilChars (ms * 1000) ++ ['Z']) := by
    rw [stripPlusZeros_body_append _ (plus_notin_render _)]
  rcases site_tz with _ | tz
  · exact hcore
  · simp only [site_local_ms_to_utc_iso, iso_utc]
    split_ifs <;> exact hcore

/-- The left fold implementing Python `max(..., key=...)` returns an
element of the list whose key is maximal and which is preceded only by
elements with strictly smaller keys (ties keep the first occurrence). -/
theorem foldl_maxCandStep_spec (t : List (ℤ × Option String)) (h : ℤ × Option String) :
    (∀ x ∈ h :: t, x.1 ≤ (t.foldl maxCandStep h).1) ∧
    ∃ p q, h :: t = p ++ (t.foldl maxCandStep h) :: q ∧
      ∀ x ∈ p, x.1 < (t.foldl maxCandStep h).1 := by
  induction t generalizing h with
  | nil =>
    refine ⟨?_, [], [], rfl, by simp⟩
    intro x hx
    rcases List.mem_singleton.mp hx with rfl
    exact le_refl _
  | cons y t' ih =>
    rw [List.foldl_cons]
    by_cases hlt : h.1 < y.1
    · have hstep : maxCandStep h y = y := by simp [maxCandStep, hlt]
      rw [hstep]
      obtain ⟨hmax, p', q', hdec, hplt⟩ := ih y
      constructor
      · intro x hx
        rcases List.mem_cons.mp hx with rfl | hx'
        · exact le_of_lt (lt_of_lt_of_le hlt (hmax y (List.mem_cons_self _ _)))
        · exact hmax x hx'
      · refine ⟨h :: p', q', by rw [List.cons_append, ← hdec], ?_⟩
        intro x hx
        rcases List.mem_cons.mp hx with rfl | hx'
        · exact lt_of_lt_of_le hlt (hmax y (List.mem_cons_self _ _))
        · exact hplt x hx'
    · have hstep : maxCandStep h y = h := by simp [maxCandStep, hlt]
      rw [hstep]
      obtain ⟨hmax, p, q, hdec, hplt⟩ := ih h
      have hy : y.1 ≤ (t'.foldl maxCandStep h).1 :=
        le_trans (not_lt.mp hlt) (hmax h (List.mem_cons_self _ _))
      constructor
      · intro x hx
        rcases List.mem_cons.mp hx with rfl | hx'
        · exact hmax x (List.mem_cons_self _ _)
        · rcases List.mem_cons.mp hx' with rfl | hx''
          · exact hy
          · exact hmax x (List.mem_cons_of_mem _ hx'')
      · rcases p with _ | ⟨c, p₂⟩
        · rw [List.nil_append] at hdec
          injection hdec with hh ht
          refine ⟨[], y :: q, ?_, by simp⟩
          rw [List.nil_append, ← hh, ht]
        · rw [List.cons_append] at hdec
          injection hdec with hh ht
          refine ⟨h :: y :: p₂, q, ?_, ?_⟩
          · rw [List.cons_append, List.cons_append, ← ht]
          · intro x hx
            rcases List.mem_cons.mp hx with rfl | hx'
            · have hx1 : x.1 = c.1 := by rw [hh]
              rw [hx1]
              exact hplt c (List.mem_cons_self _ _)
            · rcases List.mem_cons.mp hx' with rfl | hx''
              · refine lt_of_le_of_lt (not_lt.mp hlt) ?_
                have hh1 : h.1 = c.1 := by rw [hh]
                rw [hh1]
                exact hplt c (List.mem_cons_self _ _)
              · exact hplt x (List.mem_cons_of_mem _ hx'')

/-- The fold used by `main` agrees with the specification-level
first-maximal-candidate search. -/
theorem firstMaxCand_cons_eq_foldl (h : ℤ × Option String)
    (t : List (ℤ × Option String)) :
    firstMaxCand (h :: t) = some (t.foldl maxCandStep h) := by
  obtain ⟨hmax, p, q, hdec, hplt⟩ := foldl_maxCandStep_spec t h
  unfold firstMaxCand
  rw [hdec, List.find?_append]
  have hpnone : p.find?
      (fun c => (p ++ (t.foldl maxCandStep h) :: q).all (fun x => x.1 ≤ c.1)) = none := by
    rw [List.find?_eq_none]
    intro x hx
    simp only [List.all_eq_true, decide_eq_true_eq, not_forall]
    refine ⟨t.foldl maxCandStep h, List.mem_append_right _ (List.mem_cons_self _ _), ?_⟩
    exact not_le.mpr (hplt x hx)
  rw [hpnone, Option.none_or, List.find?_cons_of_pos]
  simp only [List.all_eq_true, decide_eq_true_eq]
  intro x hx
  exact hmax x (by rw [hdec]; exact hx)

/-- C9: reconciliation returns `None` on an empty candidate list and
otherwise converts the first candidate carrying the maximum timestamp
(ties broken by first occurrence); an unresolvable zone name falls back
to the UTC interpretation without raising; and every produced string is
ISO-8601 text ending in the explicit `Z` suffix, with no `+` (hence no
`+00:00` offset) anywhere. -/
theorem reconcile_picks_first_max_formats_Z :
    ∀ zoneOK : String → Bool,
      (∀ cands : List (ℤ × Option String),
        reconcileTimestamp zoneOK cands =
          (firstMaxCand cands).map (fun c => site_local_ms_to_utc_iso zoneOK c.1 c.2)) ∧
      (∀ (ms : ℤ) (tz : String), zoneOK tz = false →
        site_local_ms_to_utc_iso zoneOK ms (some tz) =
          site_local_ms_to_utc_iso zoneOK ms none) ∧
      (∀ (ms : ℤ) (site_tz : Option String), ∃ body : List Char,
        (site_local_ms_to_utc_iso zoneOK ms site_tz).data = body ++ ['Z'] ∧
        '+' ∉ body) := by
  intro zoneOK
  refine ⟨?_, ?_, ?_⟩
  · intro cands
    rcases cands with _ | ⟨h, t⟩
    · rfl
    · rw [firstMaxCand_cons_eq_foldl]
      rfl
  · intro ms tz hz
    rw [site_local_eq_render, site_local_eq_render]
  · intro ms site_tz
    refine ⟨renderCivilChars (ms * 1000), ?_, plus_notin_render _⟩
    rw [site_local_eq_render]

/-- C9 witness: with candidates at 1000 and 5000 the later one is picked,
and an unknown zone name falls back to the UTC interpretation. -/
theorem reconcile_picks_first_max_formats_Z_witness :
    reconcileTimestamp (fun _ => false) [((1000 : ℤ), some "UTC"), ((5000 : ℤ), some "UTC")] =
      (firstMaxCand [((1000 : ℤ), some "UTC"), ((5000 : ℤ), some "UTC")]).map
        (fun c => site_local_ms_to_utc_iso (fun _ => false) c.1 c.2) ∧
    site_local_ms_to_utc_iso (fun _ => false) 0 (some "Mars/Olympus") =
      site_local_ms_to_utc_iso (fun _ => false) 0 none :=
  ⟨(reconcile_picks_first_max_formats_Z (fun _ => false)).1 _,
   (reconcile_picks_first_max_formats_Z (fun _ => false)).2.1 0 "Mars/Olympus" rfl⟩

/-- C10: for any zone name the database resolves, the conversion is
independent of the zone: the input is an absolute epoch timestamp, so
converting through the zone and back to UTC yields the same instant and
the same output string as the plain UTC interpretation. -/
theorem site_local_iso_independent_of_zone :
    ∀ (zoneOK : String → Bool) (ms : ℤ) (tz : String),
      zoneOK tz = true →
      site_local_ms_to_utc_iso zoneOK ms (some tz) =
        site_local_ms_to_utc_iso zoneOK ms none := by
  intro zoneOK ms tz _
  rw [site_local_eq_render, site_local_eq_render]

/-- C10 witness: a concrete timestamp converted through a resolvable
zone name equals its plain UTC conversion. -/
theorem site_local_iso_independent_of_zone_witness :
    site_local_ms_to_utc_iso (fun _ => true) 1700000000000 (some "Europe/Madrid") =
      site_local_ms_to_utc_iso (fun _ => true) 1700000000000 none :=
  site_local_iso_independent_of_zone (fun _ => true) 1700000000000 "Europe/Madrid" rfl
